import Mathlib

/-!
# Verification of the ResumeParser field-extraction core

Shallow embedding of the bilingual CV field-extraction pipeline
(`file_parser_vn.py`, `file_parser_en.py`, `models/ner_model_vn.py`,
`models/ner_model_en.py`, `utils/reference_data.py`,
`prototype/cv_parser.py`) and proofs about it.

Strings are modelled as `List Char` (`Str`).  Python regular-expression
searches are embedded as executable left-to-right scans with the same
alternation order and greediness as the patterns in the source.  The
rapidfuzz similarity score used by `match_location` is an external
library and is abstracted as an oracle parameter `score : Str → Str → ℚ`
(its values are percentages; `process.extractOne` with `score_cutoff`
keeps a candidate iff its score is `≥` the cutoff).  The reference
catalogs fetched over HTTP are passed as explicit lists; a failed fetch
is the empty list, exactly as `fetch_locations`/`fetch_skills` return
`[]` on error.
-/

/-- Text, as a list of characters (Python `str`). -/
abbrev Str := List Char

/-- Python `\s` / `str.strip` whitespace (ASCII repertoire). -/
def isSpacePy (c : Char) : Bool :=
  c = ' ' || c = '\t' || c = '\n' || c = '\r' || c = '\x0b' || c = '\x0c'

/-- Python `str.lower`, character level, for the character repertoire
used by the repository (ASCII letters plus the Vietnamese letters that
occur uppercase in the inputs; all other characters are unchanged). -/
def pyLowerChar (c : Char) : Char :=
  if 'A' ≤ c ∧ c ≤ 'Z' then Char.ofNat (c.toNat + 32)
  else if c = 'Đ' then 'đ'
  else c

def pyLower (s : Str) : Str := s.map pyLowerChar

/-- Drop trailing characters satisfying `isSpacePy`. -/
def dropTrailingSpace : Str → Str
  | [] => []
  | c :: cs =>
    let r := dropTrailingSpace cs
    if r.isEmpty && isSpacePy c then [] else c :: r

/-- Python `str.strip()`. -/
def pyStrip (s : Str) : Str := dropTrailingSpace (s.dropWhile isSpacePy)

/-- Python `str.startswith(" ")`. -/
def startsWithSpace : Str → Bool
  | c :: _ => c = ' '
  | [] => false

/-- Python `kw in s` (substring containment). -/
def occursIn (kw : Str) : Str → Bool
  | [] => kw.isEmpty
  | c :: cs => kw.isPrefixOf (c :: cs) || occursIn kw cs

/-- Python `str.splitlines()` for texts whose only line separator is
`'\n'`: the final segment is kept only when it is nonempty. -/
def splitLinesAux (cur : Str) : Str → List Str
  | [] => if cur.isEmpty then [] else [cur.reverse]
  | '\n' :: rest => cur.reverse :: splitLinesAux [] rest
  | c :: rest => splitLinesAux (c :: cur) rest

def splitLines (s : Str) : List Str := splitLinesAux [] s

/-- Python `str.split(sep)` for a single-character separator
(keeps empty segments). -/
def splitOnCharAux (sep : Char) (cur : Str) : Str → List Str
  | [] => [cur.reverse]
  | c :: rest =>
    if c = sep then cur.reverse :: splitOnCharAux sep [] rest
    else splitOnCharAux sep (c :: cur) rest

def splitOnChar (sep : Char) (s : Str) : List Str := splitOnCharAux sep [] s

/-- `int` of a nonempty digit string. -/
def digitsToNat (s : Str) : Nat :=
  s.foldl (fun n c => n * 10 + (c.toNat - 48)) 0

/-- Python `\w` with `re.UNICODE`, restricted to the character
repertoire used by the repository: ASCII alphanumerics, underscore, and
the non-ASCII (Vietnamese) letters, which all have code points
`≥ 0xC0` in the processed texts. -/
def isWordChar (c : Char) : Bool :=
  c.isAlphanum || c = '_' || decide (0xC0 ≤ c.toNat)

/-- `\b`-style test: the optional preceding character is absent or not a
word character. -/
def isWordOpt : Option Char → Bool
  | none => false
  | some c => isWordChar c

/-- The regex character class `[A-ZÀ-Ỵ]` of the Vietnamese fallback name
pattern. -/
def isUpperViet (c : Char) : Bool :=
  ('A' ≤ c && c ≤ 'Z') || (decide (0xC0 ≤ c.toNat) && decide (c.toNat ≤ 0x1EF4))

/-- Python `c.isupper()` over the repertoire used. -/
def isUpperPy (c : Char) : Bool := isUpperViet c

/-- Python `str.title()` (word-initial cased characters uppercased, the
rest lowercased), over the repertoire used. -/
def isAlphaPy (c : Char) : Bool := c.isAlpha || decide (0xC0 ≤ c.toNat)

def pyUpperChar (c : Char) : Char :=
  if 'a' ≤ c ∧ c ≤ 'z' then Char.ofNat (c.toNat - 32)
  else if c = 'đ' then 'Đ'
  else c

def pyTitleAux : Bool → Str → Str
  | _, [] => []
  | prevAlpha, c :: cs =>
    (if isAlphaPy c && !prevAlpha then pyUpperChar c else pyLowerChar c) ::
      pyTitleAux (isAlphaPy c) cs

def pyTitle (s : Str) : Str := pyTitleAux false s

/-- `" ".join(parts)`. -/
def joinSpace : List Str → Str
  | [] => []
  | [x] => x
  | x :: xs => x ++ ' ' :: joinSpace xs

/-- Python `str.replace("##", "")` (left-to-right, non-overlapping). -/
def removeHash : Str → Str
  | [] => []
  | '#' :: '#' :: rest => removeHash rest
  | c :: rest => c :: removeHash rest

-- sanity checks for the primitives
example : pyLower "Đại Học BK".toList = "đại học bk".toList := rfl
example : pyStrip "  ab c\n".toList = "ab c".toList := rfl
example : occursIn "tốt".toList "giao tiếp tốt".toList = true := rfl
example : splitLines "a\nb\n".toList = ["a".toList, "b".toList] := rfl
example : splitLines "".toList = [] := rfl
example : splitLines "\n".toList = [[]] := rfl
example : removeHash "##ab#c##".toList = "ab#c".toList := rfl
example : digitsToNat "2019".toList = 2019 := rfl
example : ¬ ((0 : ℚ) ≥ 90) := by norm_num

/-! ## Entity spans and the entity merger (`models/ner_model_vn.py`,
`models/ner_model_en.py`) -/

/-- An entity span as produced by the external recognizers:
`{"word": ..., "entity_group": ..., "start": ...}` (the merger only
reads these three keys). -/
structure Entity where
  word : Str
  group : Str
  start : Nat

/-- `sorted(entities, key=lambda e: e['start'])` — Python's sort is
stable; `insertionSort` is stable as well. -/
def sortEntities (l : List Entity) : List Entity :=
  l.insertionSort (fun a b => a.start ≤ b.start)

/-- Python `<=` on strings: lexicographic by code point. -/
def lexLe : Str → Str → Bool
  | [], _ => true
  | _ :: _, [] => false
  | a :: as, b :: bs => if a < b then true else if a = b then lexLe as bs else false

/-- `sorted(set(l))`: the distinct elements of `l` in lexicographic
order. -/
def pySortedSet (l : List Str) : List Str :=
  l.dedup.insertionSort (fun a b => lexLe a b = true)

/-- One step of the span-merging scan of `combine_entities_vn` /
`combine_entities_en` (they are textually identical up to the label
vocabulary).  State: `(combined, current)`. -/
def combStep (label : Str) (st : List Str × List Str) (e : Entity) :
    List Str × List Str :=
  let combined := st.1
  let current := st.2
  if e.group = label then
    let word := pyStrip (removeHash e.word)
    if !current.isEmpty && !startsWithSpace word then
      (combined, current ++ [word])
    else
      if !current.isEmpty then (combined ++ [pyStrip (joinSpace current)], [word])
      else (combined, [word])
  else
    if !current.isEmpty then (combined ++ [pyStrip (joinSpace current)], [])
    else (combined, [])

/-- `combine_entities_vn(entities, label)` (and the identical
`combine_entities_en`): scan the spans sorted by start offset, flush on
label mismatch, then `sorted({c for c in combined if len(c) > 1})`. -/
def combine_entities_vn (entities : List Entity) (label : Str) : List Str :=
  let st := (sortEntities entities).foldl (combStep label) ([], [])
  let combined := if st.2.isEmpty then st.1 else st.1 ++ [pyStrip (joinSpace st.2)]
  pySortedSet (combined.filter (fun c => 1 < c.length))

/-! ## Reference catalogs (`utils/reference_data.py`) -/

/-- A catalog entry `{id, name}`. -/
abbrev CatEntry := Nat × Str

/-- The hard-coded alias table of `match_location`. -/
def COMMON_ABBREVIATIONS : List (Str × Str) :=
  [("tp.hcm".toList, "Hồ Chí Minh".toList),
   ("tp. hcm".toList, "Hồ Chí Minh".toList),
   ("hcm".toList, "Hồ Chí Minh".toList),
   ("hcmc".toList, "Hồ Chí Minh".toList),
   ("ho chi minh".toList, "Hồ Chí Minh".toList),
   ("tphcm".toList, "Hồ Chí Minh".toList),
   ("tp hcm".toList, "Hồ Chí Minh".toList),
   ("hà nội".toList, "Hà Nội".toList),
   ("hn".toList, "Hà Nội".toList),
   ("tp.hn".toList, "Hà Nội".toList),
   ("tp. hn".toList, "Hà Nội".toList),
   ("hanoi".toList, "Hà Nội".toList),
   ("ha noi".toList, "Hà Nội".toList),
   ("đà nẵng".toList, "Đà Nẵng".toList),
   ("dn".toList, "Đà Nẵng".toList),
   ("danang".toList, "Đà Nẵng".toList),
   ("da nang".toList, "Đà Nẵng".toList)]

/-- `process.extractOne(query, [name], score_cutoff=cutoff)` with the
similarity abstracted as the oracle `score`: returns the score iff it
reaches the cutoff. -/
def extractOne (score : Str → Str → ℚ) (query cand : Str) (cutoff : ℚ) : Option ℚ :=
  if score query cand ≥ cutoff then some (score query cand) else none

/-- `re.sub(r'tp[\.\s]*', '', s)`, fuel-indexed so that it is
structurally recursive (the fuel is the length of the string, which
always suffices). -/
def subTpF : Nat → Str → Str
  | 0, _ => []
  | _ + 1, [] => []
  | fuel + 1, 't' :: 'p' :: rest =>
      subTpF fuel (rest.dropWhile (fun c => c = '.' || isSpacePy c))
  | fuel + 1, c :: rest => c :: subTpF fuel rest

def subTp (s : Str) : Str := subTpF s.length s

/-- The fuzzy-matching phase of `match_location`: fold over the catalog
keeping the strictly best score so far (initial best 0), then, when the
normalized input carries a `"tp."`/`"tp "` marker, one retry with the
prefix stripped, continuing with the same running best. -/
def fuzzyPhase (score : Str → Str → ℚ) (provinces : List CatEntry)
    (extracted normalized : Str) : Option Nat :=
  let step := fun (q : Str) (acc : Option Nat × ℚ) (p : CatEntry) =>
    match extractOne score q p.2 90 with
    | some s => if s > acc.2 then (some p.1, s) else acc
    | none => acc
  let acc := provinces.foldl (step extracted) (none, 0)
  let acc :=
    if occursIn "tp.".toList normalized || occursIn "tp ".toList normalized then
      provinces.foldl (step (pyStrip (subTp normalized))) acc
    else acc
  acc.1

/-- `match_location(extracted)` from `utils/reference_data.py`,
parameterized by the similarity oracle and the fetched province
catalog.  Alias hit with a catalog entry of the official name
short-circuits; otherwise the fuzzy phase runs (also when the alias
table hit found no catalog entry). -/
def match_location (score : Str → Str → ℚ) (provinces : List CatEntry)
    (extracted : Str) : Option Nat :=
  let normalized := pyStrip (pyLower extracted)
  match COMMON_ABBREVIATIONS.find? (fun p => p.1 = normalized) with
  | some ab =>
    match provinces.find? (fun p => p.2 = ab.2) with
    | some p => some p.1
    | none => fuzzyPhase score provinces extracted normalized
  | none => fuzzyPhase score provinces extracted normalized

/-- `get_default_location()`: first catalog entry with id 99, else the
implicit Python `None`. -/
def get_default_location (provinces : List CatEntry) : Option Nat :=
  match provinces.find? (fun p => p.1 = 99) with
  | some p => some p.1
  | none => none

/-- One skill pattern `(?<!\w)name(?!\w)`: an occurrence of `pat` with
no word character directly before or after. -/
def skillOccursAux (pat : Str) : Option Char → Str → Bool
  | _, [] => false
  | prev, c :: cs =>
    (pat.isPrefixOf (c :: cs) && !isWordOpt prev &&
      !(match (c :: cs).drop pat.length with
        | [] => false
        | d :: _ => isWordChar d)) ||
    skillOccursAux pat (some c) cs

def skillOccurs (pat s : Str) : Bool := skillOccursAux pat none s

/-- `match_skills_from_text(text)`: normalize the text
(`re.sub(r'[^\w\s/#+.-]', ' ', text.lower())`), then keep, in catalog
order, the ids whose name matches with word boundaries. -/
def match_skills_from_text (skills : List CatEntry) (text : Str) : List Nat :=
  let norm := (pyLower text).map (fun c =>
    if isWordChar c || isSpacePy c || c = '/' || c = '#' || c = '+' || c = '.' || c = '-'
    then c else ' ')
  (skills.filter (fun sk => skillOccurs (pyLower sk.2) norm)).map (fun sk => sk.1)

-- sanity checks
example :
    combine_entities_vn
      [⟨"Hà".toList, "LOCATION".toList, 0⟩, ⟨"Nội".toList, "LOCATION".toList, 3⟩]
      "LOCATION".toList = ["Hà Nội".toList] := rfl
example :
    match_location (fun _ _ => 0) [(1, "Hà Nội".toList)] "hn".toList = some 1 := rfl
example : match_location (fun _ _ => 0) [] "hn".toList = none := rfl
example : get_default_location [(99, "Toàn quốc".toList)] = some 99 := rfl
example : get_default_location [] = none := rfl

/-! ## Education level (`file_parser_vn.py` lines 150–194) -/

def postgradKws : List Str :=
  ["thạc sĩ".toList, "tiến sĩ".toList, "master".toList, "phd".toList, "doctor".toList]

def uniKws : List Str :=
  ["đại học".toList, "đh".toList, "học viện".toList, "university".toList,
   "bachelor".toList, "cử nhân".toList, "kỹ sư".toList, "academy".toList]

def collegeKws : List Str :=
  ["cao đẳng".toList, "college".toList, "trung cấp".toList, "vocational".toList]

def highSchoolKws : List Str :=
  ["trung học".toList, "thpt".toList, "highschool".toList, "high school".toList]

/-- `any of kws occurs in s` — a plain alternation pattern matches iff
one alternative occurs as a substring. -/
def kwAnyIn (kws : List Str) (s : Str) : Bool := kws.any (fun k => occursIn k s)

/-- The negative lookahead `(?!\s*(thạc sĩ|tiến sĩ))` succeeds at a
position iff `blockedAfter` of the remaining text is false. -/
def blockedAfter : Str → Bool
  | [] => false
  | c :: cs =>
    "thạc sĩ".toList.isPrefixOf (c :: cs) ||
    "tiến sĩ".toList.isPrefixOf (c :: cs) ||
    (isSpacePy c && blockedAfter cs)

/-- The university-tier pattern: some alternative occurs at some
position with the lookahead clear. -/
def uniHit : Str → Bool
  | [] => false
  | c :: cs =>
    uniKws.any (fun k => k.isPrefixOf (c :: cs) && !blockedAfter ((c :: cs).drop k.length)) ||
    uniHit cs

/-- The four-tier priority scan of the `patterns` list on an
(already lowercased) text, as run over the full text and over the
education section.  Returns `none` when no tier matches. -/
def eduFullScan (low : Str) : Option Nat :=
  if kwAnyIn postgradKws low then some 4
  else if uniHit low then some 3
  else if kwAnyIn collegeKws low then some 2
  else if kwAnyIn highSchoolKws low then some 1
  else none

/-- Organization-entity stage of `extract_education_level` (step "2." in
the source): first organization whose lowercased text contains an
institution keyword decides. -/
def orgHitVn (org : Str) : Option Nat :=
  let l := pyLower org
  if kwAnyIn ["đại học".toList, "đh".toList, "học viện".toList] l then some 3
  else if kwAnyIn ["cao đẳng".toList, "trung cấp".toList] l then some 2
  else if kwAnyIn ["trung học".toList, "thpt".toList] l then some 1
  else none

def orgScan (entities : List Entity) : Option Nat :=
  ((entities.filter (fun e => e.group = "ORGANIZATION".toList)).map Entity.word).findSome?
    orgHitVn

/-- `(.*?)(?=\n\s*\n|$)` stop test: a blank-line separator starts
here. -/
def wsThenNl : Str → Bool
  | [] => false
  | c :: cs => c = '\n' || (isSpacePy c && wsThenNl cs)

def blankAhead : Str → Bool
  | '\n' :: rest => wsThenNl rest
  | _ => false

/-- The lazy group `(.*?)` of the education-section pattern: take until
a blank-line separator or the `$` anchor (end, or lone trailing
newline). -/
def takeUntilStop : Str → Str
  | [] => []
  | c :: cs =>
    if blankAhead (c :: cs) || (c = '\n' && cs.isEmpty) then []
    else c :: takeUntilStop cs

/-- `[^:]*[:]?` after the section header: skip to the first colon and
consume it (or to the end). -/
def dropColonPart (s : Str) : Str := (s.dropWhile (fun c => c ≠ ':')).drop 1

def eduHeaders : List Str :=
  ["học vấn".toList, "giáo dục".toList, "trình độ".toList, "bằng cấp".toList,
   "education".toList, "bằng".toList]

/-- The education-section regex
`(học vấn|giáo dục|trình độ|bằng cấp|education|bằng)[^:]*[:]?(.*?)(?=\n\s*\n|$)`
with `DOTALL`, on the lowercased text: leftmost header occurrence, then
group 2. -/
def eduSection : Str → Option Str
  | [] => none
  | c :: cs =>
    match eduHeaders.find? (fun h => h.isPrefixOf (c :: cs)) with
    | some h => some (takeUntilStop (dropColonPart ((c :: cs).drop h.length)))
    | none => eduSection cs

/-- `extract_education_level(text, entities)` from `file_parser_vn.py`:
full-text tier scan, then organization entities, then the education
section, default 5. -/
def extract_education_level (text : Str) (entities : List Entity) : Nat :=
  let low := pyLower text
  match eduFullScan low with
  | some d => d
  | none =>
    match orgScan entities with
    | some d => d
    | none =>
      match eduSection low with
      | some sec =>
        match eduFullScan sec with
        | some d => d
        | none => 5
      | none => 5

/-- The decision ladder in the order the specification describes it
(§4.3 steps 1–7): full text, then the education section, then the
organization entities, default 5. -/
def eduLadderSpec (text : Str) (entities : List Entity) : Nat :=
  let low := pyLower text
  match eduFullScan low with
  | some d => d
  | none =>
    match (eduSection low).bind eduFullScan with
    | some d => d
    | none =>
      match orgScan entities with
      | some d => d
      | none => 5

-- sanity checks
example : extract_education_level "Đại học Bách Khoa".toList [] = 3 := rfl
example : extract_education_level "tốt nghiệp THPT".toList [] = 1 := rfl
example : extract_education_level "thạc sĩ CNTT, đại học X".toList [] = 4 := rfl
example : extract_education_level "không có gì".toList [] = 5 := rfl
example :
    extract_education_level "abc".toList [⟨"Đại học Y".toList, "ORGANIZATION".toList, 0⟩] = 3 := rfl

/-! ## Language proficiency (`file_parser_vn.py` lines 196–269) -/

/-- Advanced-level keywords (`level_keywords["advanced"]`). -/
def advancedKws : List Str :=
  ["thành thạo".toList, "bản địa".toList, "nâng cao".toList, "chuyên nghiệp".toList,
   "thuần thục".toList, "fluency".toList, "fluent".toList, "native".toList,
   "professional".toList, "communicate".toList, "advanced".toList, "proficient".toList]

/-- Basic-level keywords (`level_keywords["basic"]`).  The source lists
`"thường" "basic"` with a missing comma, which Python concatenates into
the single entry `"thườngbasic"`. -/
def basicKws : List Str :=
  ["cơ bản".toList, "căn bản".toList, "đọc hiểu".toList, "đơn giản".toList,
   "phổ thông".toList, "tốt".toList, "ổn".toList, "bình thường".toList,
   "thườngbasic".toList, "elementary".toList, "beginner".toList,
   "intermediate".toList, "standard".toList]

/-- `ielts\s*(\d+(\.\d+)?)`: parse the score after the separator as the
pair (all digits as a natural number, number of fractional digits),
representing the exact rational `n / 10 ^ k` (the Python `float` parse
is exact at the precision the comparison with 7.0 needs). -/
def parseScore (s : Str) : Option (Nat × Nat) :=
  let t := s.dropWhile isSpacePy
  let ds := t.takeWhile Char.isDigit
  if ds.isEmpty then none
  else
    match t.drop ds.length with
    | '.' :: r2 =>
      let fs := r2.takeWhile Char.isDigit
      if fs.isEmpty then some (digitsToNat ds, 0)
      else some (digitsToNat ds * 10 ^ fs.length + digitsToNat fs, fs.length)
    | _ => some (digitsToNat ds, 0)

def findIelts : Str → Option (Nat × Nat)
  | [] => none
  | c :: cs =>
    if "ielts".toList.isPrefixOf (c :: cs) then
      match parseScore ((c :: cs).drop 5) with
      | some v => some v
      | none => findIelts cs
    else findIelts cs

/-- `toeic\s*(\d+)`. -/
def parseIntScore (s : Str) : Option Nat :=
  let t := s.dropWhile isSpacePy
  let ds := t.takeWhile Char.isDigit
  if ds.isEmpty then none else some (digitsToNat ds)

def findToeic : Str → Option Nat
  | [] => none
  | c :: cs =>
    if "toeic".toList.isPrefixOf (c :: cs) then
      match parseIntScore ((c :: cs).drop 5) with
      | some v => some v
      | none => findToeic cs
    else findToeic cs

/-- `\btok\b` for one token of a `\b(..|..)\b` alternation. -/
def hasWordTokenAux (toks : List Str) : Option Char → Str → Bool
  | _, [] => false
  | prev, c :: cs =>
    toks.any (fun t =>
      t.isPrefixOf (c :: cs) && !isWordOpt prev &&
      !(match (c :: cs).drop t.length with
        | [] => false
        | d :: _ => isWordChar d)) ||
    hasWordTokenAux toks (some c) cs

def hasWordToken (toks : List Str) (s : Str) : Bool := hasWordTokenAux toks none s

/-- The English branch of the per-line scan: IELTS, then TOEIC, then
CEFR, then keyword sets; if nothing on the line matches, the previous
level is kept.  `some true` is `"english"` (advanced), `some false` is
`"basic_english"`. -/
def englishStep (line : Str) (prev : Option Bool) : Option Bool :=
  if occursIn "tiếng anh".toList line || occursIn "english".toList line then
    match findIelts line with
    | some (n, k) => some (decide (n ≥ 7 * 10 ^ k))
    | none =>
      match findToeic line with
      | some n => some (decide (n ≥ 650))
      | none =>
        if hasWordToken ["c1".toList, "c2".toList] line then some true
        else if hasWordToken ["a1".toList, "a2".toList, "b1".toList, "b2".toList] line then
          some false
        else if advancedKws.any (fun k => occursIn k line) then some true
        else if basicKws.any (fun k => occursIn k line) then some false
        else prev
  else prev

/-- The Japanese branch of the per-line scan. -/
def japaneseStep (line : Str) (prev : Option Bool) : Option Bool :=
  if occursIn "tiếng nhật".toList line || occursIn "japanese".toList line then
    if hasWordToken ["n1".toList, "n2".toList] line ||
        advancedKws.any (fun k => occursIn k line) then some true
    else if hasWordToken ["n3".toList, "n4".toList, "n5".toList] line ||
        basicKws.any (fun k => occursIn k line) then some false
    else prev
  else prev

/-- `extract_language_info(text)`: lowercase, scan line by line
(skipping blank lines), overwrite per language, then emit the label id
(`english`=1, `japanese`=2, `basic_english`=3, `basic_japanese`=4,
`none`=5; a set Japanese level overwrites a set English level in the
final assembly). -/
def extract_language_info (text : Str) : Nat :=
  let low := pyLower text
  let st := (splitLines low).foldl
    (fun (st : Option Bool × Option Bool) line =>
      if (pyStrip line).isEmpty then st
      else (englishStep line st.1, japaneseStep line st.2))
    (none, none)
  match st.2 with
  | some b => if b then 2 else 4
  | none =>
    match st.1 with
    | some b => if b then 1 else 3
    | none => 5

-- sanity checks
example : extract_language_info "Tiếng Anh IELTS 7.5".toList = 1 := rfl
example : extract_language_info "English TOEIC 600".toList = 3 := rfl
example : extract_language_info "english b2 level".toList = 3 := rfl
example : extract_language_info "Tiếng Nhật N2".toList = 2 := rfl
example : extract_language_info "nothing here".toList = 5 := rfl
example : extract_language_info "Tiếng Anh giao tiếp tốt".toList = 3 := rfl

/-! ## Contact, experience, DOB, name and location resolvers
(`file_parser_vn.py` lines 64–148) -/

/-- The character class `[\w\.-]` of the email pattern. -/
def emailChar (c : Char) : Bool := isWordChar c || c = '.' || c = '-'

/-- Rightmost split of the post-`@` run at a `'.'` that is followed by a
word character (the backtracking of the greedy `[\w\.-]+` before
`\.\w+`); the part before the dot must be nonempty. -/
def lastDotSplit : Str → Option (Str × Str)
  | [] => none
  | c :: cs =>
    match lastDotSplit cs with
    | some (d, t) => some (c :: d, t)
    | none =>
      if c = '.' then
        match cs with
        | d :: _ => if isWordChar d then some ([], cs.takeWhile isWordChar) else none
        | [] => none
      else none

/-- `[\w\.-]+@[\w\.-]+\.\w+` at one position. -/
def emailAt (s : Str) : Option Str :=
  let run := s.takeWhile emailChar
  if run.isEmpty then none
  else
    match s.drop run.length with
    | '@' :: rest =>
      let run2 := rest.takeWhile emailChar
      match lastDotSplit run2 with
      | some (dom, tld) => if dom.isEmpty then none else some (run ++ '@' :: dom ++ '.' :: tld)
      | none => none
    | _ => none

def emailFindAux : Str → Option Str
  | [] => none
  | c :: cs => (emailAt (c :: cs)).orElse (fun _ => emailFindAux cs)

/-- `re.search(r'[\w\.-]+@[\w\.-]+\.\w+', text)`, group 0. -/
def emailFind (s : Str) : Option Str := emailFindAux s

/-- Next character is outside `\w` (or the string ends): the trailing
`\b` of a pattern ending in a word character. -/
def boundaryAfter : Str → Bool
  | [] => true
  | d :: _ => !isWordChar d

def nineDigits (t : Str) : Option (Str × Str) :=
  let ds := t.take 9
  if ds.length = 9 && ds.all Char.isDigit then some (ds, t.drop 9) else none

/-- `\b(?:\+?84|0)(\d{9})\b` at one position (`prev` is the preceding
character, for the leading `\b`). -/
def phoneAt (prev : Option Char) (s : Str) : Option Str :=
  (match s with
   | '+' :: '8' :: '4' :: rest =>
     -- '+' is not a word character, so the leading \b needs a word
     -- character before it
     if isWordOpt prev then
       match nineDigits rest with
       | some (ds, r) => if boundaryAfter r then some ('+' :: '8' :: '4' :: ds) else none
       | none => none
     else none
   | _ => none).orElse fun _ =>
  (match s with
   | '8' :: '4' :: rest =>
     if !isWordOpt prev then
       match nineDigits rest with
       | some (ds, r) => if boundaryAfter r then some ('8' :: '4' :: ds) else none
       | none => none
     else none
   | _ => none).orElse fun _ =>
  (match s with
   | '0' :: rest =>
     if !isWordOpt prev then
       match nineDigits rest with
       | some (ds, r) => if boundaryAfter r then some ('0' :: ds) else none
       | none => none
     else none
   | _ => none)

def phoneFindAux : Option Char → Str → Option Str
  | _, [] => none
  | prev, c :: cs => (phoneAt prev (c :: cs)).orElse (fun _ => phoneFindAux (some c) cs)

/-- `re.search(r'\b(?:\+?84|0)(\d{9})\b', stripped)`, group 0, where the
caller already removed spaces and hyphens. -/
def phoneFind (s : Str) : Option Str := phoneFindAux none s

/-- The unit alternation `(năm|year|yrs?|y)` as a prefix test. -/
def expUnitAt (t : Str) : Bool :=
  "năm".toList.isPrefixOf t || "year".toList.isPrefixOf t ||
  "yr".toList.isPrefixOf t || "y".toList.isPrefixOf t

/-- `(\d+)\s*(năm|year|yrs?|y)...` at one position (the later optional
groups never affect success); returns `int(group(1))`. -/
def expAt (s : Str) : Option Nat :=
  let ds := s.takeWhile Char.isDigit
  if ds.isEmpty then none
  else if expUnitAt ((s.drop ds.length).dropWhile isSpacePy) then some (digitsToNat ds)
  else none

def expFindAux : Str → Option Nat
  | [] => none
  | c :: cs => (expAt (c :: cs)).orElse (fun _ => expFindAux cs)

/-- The experience regex search on the lowercased text, group 1. -/
def expFind (s : Str) : Option Nat := expFindAux s

/-- `[0-3]?\d` (and, with other bounds, `[01]?\d`): the two-digit form
requires the class character then a digit, the one-digit form a digit;
the separator check that follows makes the two locally exclusive. -/
def twoOrOneDigit (lo hi : Char) (s : Str) : Option (Str × Str) :=
  (match s with
   | a :: b :: r => if (lo ≤ a && a ≤ hi) && b.isDigit then some ([a, b], r) else none
   | _ => none).orElse fun _ =>
  (match s with
   | a :: r => if a.isDigit then some ([a], r) else none
   | _ => none)

def yearTryLen (n : Nat) (r : Str) : Option (Str × Str) :=
  let ds := r.take n
  if ds.length = n && ds.all Char.isDigit && boundaryAfter (r.drop n) then
    some (ds, r.drop n)
  else none

/-- `\d{2,4}\b`, greedy. -/
def yearTry (r : Str) : Option (Str × Str) :=
  (yearTryLen 4 r).orElse fun _ => (yearTryLen 3 r).orElse fun _ => yearTryLen 2 r

/-- The date group of the DOB pattern — day `[0-3]?\d`, a slash or
hyphen, month `[01]?\d`, a slash or hyphen, year `\d{2,4}` — followed
by `\b`; returns the matched date (the capture group). -/
def parseDateFull (s : Str) : Option Str :=
  match twoOrOneDigit '0' '3' s with
  | none => none
  | some (d1, r1) =>
    match r1 with
    | sep1 :: r2 =>
      if sep1 = '/' || sep1 = '-' then
        match twoOrOneDigit '0' '1' r2 with
        | none => none
        | some (d2, r3) =>
          match r3 with
          | sep2 :: r4 =>
            if sep2 = '/' || sep2 = '-' then
              match yearTry r4 with
              | some (ds, _) => some (d1 ++ sep1 :: d2 ++ sep2 :: ds)
              | none => none
            else none
          | [] => none
      else none
    | [] => none

/-- `ngày\s*sinh` as a prefix; returns the rest. -/
def dobPrefixNgay (s : Str) : Option Str :=
  if "ngày".toList.isPrefixOf s then
    let r := (s.drop 4).dropWhile isSpacePy
    if "sinh".toList.isPrefixOf r then some (r.drop 4) else none
  else none

/-- `[:\s]*` then the date group. -/
def dobDateAfter (r : Str) : Option Str :=
  parseDateFull (r.dropWhile (fun c => c = ':' || isSpacePy c))

/-- `\b(?:ngày\s*sinh|dob)?[:\s]*(date)\b` at one position.  The leading
`\b` depends on the first character the pattern consumes: a word
character (prefix letter or digit) needs a non-word predecessor, a
consumed `':'`/space needs a word predecessor. -/
def dobAt (prev : Option Char) (s : Str) : Option Str :=
  (if !isWordOpt prev then
     match dobPrefixNgay s with
     | some r => dobDateAfter r
     | none => none
   else none).orElse fun _ =>
  (if !isWordOpt prev then
     if "dob".toList.isPrefixOf s then dobDateAfter (s.drop 3) else none
   else none).orElse fun _ =>
  (let run := s.takeWhile (fun c => c = ':' || isSpacePy c)
   if run.isEmpty then
     if !isWordOpt prev then parseDateFull s else none
   else
     if isWordOpt prev then parseDateFull (s.drop run.length) else none)

def dobFindAux : Option Char → Str → Option Str
  | _, [] => none
  | prev, c :: cs => (dobAt prev (c :: cs)).orElse (fun _ => dobFindAux (some c) cs)

/-- The DOB regex search (case-insensitive: run on the lowercased
text; the captured date consists of digits and separators, which
lowercasing leaves unchanged). -/
def dobFind (s : Str) : Option Str := dobFindAux none s

/-- `^([A-ZÀ-Ỵ][A-ZÀ-Ỵ\s]{2,})$` on a stripped chunk. -/
def upperLineMatch : Str → Bool
  | [] => false
  | c :: rest =>
    isUpperViet c && decide (2 ≤ rest.length) &&
      rest.all (fun d => isUpperViet d || isSpacePy d)

/-- Fallback name extraction: the first two `'.'`-separated chunks,
first all-uppercase line wins, title-cased. -/
def nameFallback (text : Str) : Option Str :=
  ((splitOnChar '.' text).take 2).findSome? (fun line =>
    let l := pyStrip line
    if upperLineMatch l then some (pyTitle l) else none)

/-- `max(person_entities, key=name_score)`: first element with the
strictly greatest (length, uppercase-count) key. -/
def nameKey (n : Str) : Nat × Nat := (n.length, (n.filter isUpperPy).length)

def keyGt (a b : Nat × Nat) : Bool := b.1 < a.1 || (a.1 = b.1 && b.2 < a.2)

def pyMaxName : List Str → Str
  | [] => []
  | x :: xs => xs.foldl (fun best n => if keyGt (nameKey n) (nameKey best) then n else best) x

/-- The alternation `(Thành phố|Tỉnh|TP)` of the location fallback. -/
def locFallbackAlts : List Str := ["thành phố".toList, "tỉnh".toList, "tp".toList]

/-- `re.search(r'(Thành phố|Tỉnh|TP)[^.,\n]+', text, re.IGNORECASE)`,
`group(0).strip()`: scan the lowercased text, slice the original. -/
def findLocFallback : Str → Str → Option Str
  | [], _ => none
  | _ :: _, [] => none
  | lc :: lrest, oc :: orest =>
    match locFallbackAlts.findSome? (fun k =>
      if k.isPrefixOf (lc :: lrest) then
        let tail := ((lc :: lrest).drop k.length).takeWhile
          (fun c => !(c = '.' || c = ',' || c = '\n'))
        if tail.isEmpty then none else some (k.length + tail.length)
      else none) with
    | some len => some (pyStrip ((oc :: orest).take len))
    | none => findLocFallback lrest orest

-- sanity checks for the scanners
example : emailFind "Email: a@x.com\nrest".toList = some "a@x.com".toList := rfl
example : phoneFind "Khoa20162020\n0912345678\nx".toList = some "0912345678".toList := rfl
example : expFind "5 năm kinh nghiệm".toList = some 5 := rfl
example : dobFind (pyLower "Ngày sinh: 31/12/1990 x".toList) = some "31/12/1990".toList := rfl
example : dobFind (pyLower "Bách Khoa 2016-2020".toList) = none := rfl
example :
    findLocFallback (pyLower "ở Thành phố Huế, x".toList) "ở Thành phố Huế, x".toList =
      some "Thành phố Huế".toList := rfl

/-! ## The output record and the orchestrator (`file_parser_vn.py`
lines 12–62) -/

/-- The record built by `info_structure()` and filled by the
resolvers.  `gioi_thieu` is never assigned (the summary step is
commented out in the source). -/
structure Info where
  ho_ten : Option Str := none
  ngay_sinh : Option Str := none
  so_dien_thoai : Option Str := none
  email : Option Str := none
  khu_vuc : Option Nat := none
  kinh_nghiem_nam : Option Nat := none
  trinh_do_hoc_van : Option Nat := none
  ngoai_ngu : Option Nat := none
  ky_nang_chinh : List Nat := []
  gioi_thieu : Option Str := none

def info_structure : Info := {}

/-- `extract_personal_info(text, entities)` applied as a dict update.
Merged names always have length `> 1`, hence are truthy, so the regex
fallback runs exactly when the merged PERSON list is empty. -/
def extract_personal_info (text : Str) (entities : List Entity) (i : Info) : Info :=
  let names := combine_entities_vn entities "PERSON".toList
  let hoTen := if names.isEmpty then nameFallback text else some (pyMaxName names)
  let i := { i with ho_ten := hoTen }
  match dobFind (pyLower text) with
  | some d => { i with ngay_sinh := some d }
  | none => i

/-- `extract_location_info(text, entities)`: iterate the merged
LOCATION entities overwriting `khu_vuc` on every truthy match (the
loop has no break), then the regex fallback, then
`get_default_location()`. -/
def extract_location_info (score : Str → Str → ℚ) (provinces : List CatEntry)
    (text : Str) (entities : List Entity) (i : Info) : Info :=
  let locs := combine_entities_vn entities "LOCATION".toList
  let v := locs.foldl (fun acc l =>
    match match_location score provinces l with
    | some id => if id ≠ 0 then some id else acc
    | none => acc) none
  let v :=
    match v with
    | some id => some id
    | none =>
      match findLocFallback (pyLower text) text with
      | some locText =>
        match match_location score provinces locText with
        | some id => if id ≠ 0 then some id else none
        | none => none
      | none => none
  let v :=
    match v with
    | some id => some id
    | none => get_default_location provinces
  { i with khu_vuc := v }

/-- `extract_contact_info(text)`. -/
def extract_contact_info (text : Str) (i : Info) : Info :=
  let i :=
    match emailFind text with
    | some e => { i with email := some e }
    | none => i
  match phoneFind (text.filter (fun c => !(c = ' ' || c = '-'))) with
  | some p => { i with so_dien_thoai := some (pyStrip p) }
  | none => i

/-- `extract_experience_info(text)` (the pattern is case-insensitive:
run on the lowercased text). -/
def extract_experience_info (text : Str) (i : Info) : Info :=
  match expFind (pyLower text) with
  | some n => { i with kinh_nghiem_nam := some n }
  | none => i

/-- `extract_skills_info(text)`. -/
def extract_skills_info (skills : List CatEntry) (text : Str) (i : Info) : Info :=
  { i with ky_nang_chinh := match_skills_from_text skills text }

/-- The body of the `try` block of `extract_info`, as the ordered list
of field-resolver updates. -/
def vnSteps (score : Str → Str → ℚ) (provinces skills : List CatEntry)
    (text : Str) (entities : List Entity) : List (Info → Info) :=
  [extract_personal_info text entities,
   extract_location_info score provinces text entities,
   extract_contact_info text,
   extract_experience_info text,
   fun i => { i with trinh_do_hoc_van := some (extract_education_level text entities) },
   fun i => { i with ngoai_ngu := some (extract_language_info text) },
   extract_skills_info skills text]

/-- Run updates until the first one that raises: the single
`try/except` of `extract_info` catches the exception and returns the
record as updated so far. -/
def runSteps : Info → List (Except Unit (Info → Info)) → Info
  | i, [] => i
  | i, Except.ok f :: rest => runSteps (f i) rest
  | i, Except.error _ :: _ => i

/-- `extract_info` with an explicit fault pattern: each resolver slot
either computes (`Except.ok f`) or raises (`Except.error ()`). -/
def extract_info_withFaults (steps : List (Except Unit (Info → Info))) : Info :=
  runSteps info_structure steps

/-- `extract_info(text, ner)` on the resolved entity list, when no
resolver raises (every embedded resolver is a total function). -/
def extract_info (score : Str → Str → ℚ) (provinces skills : List CatEntry)
    (text : Str) (entities : List Entity) : Info :=
  (vnSteps score provinces skills text entities).foldl (fun i f => f i) info_structure

/-- Running fault-free steps is the plain fold. -/
theorem runSteps_ok (i : Info) (fs : List (Info → Info)) :
    runSteps i (fs.map Except.ok) = fs.foldl (fun j f => f j) i := by
  induction fs generalizing i with
  | nil => rfl
  | cons f rest ih => simp [runSteps, List.foldl_cons, ih]

/-- `extract_info` is the fault-free instance of the faulty runner. -/
theorem extract_info_eq_withFaults (score : Str → Str → ℚ)
    (provinces skills : List CatEntry) (text : Str) (entities : List Entity) :
    extract_info score provinces skills text entities =
      extract_info_withFaults ((vnSteps score provinces skills text entities).map Except.ok) := by
  unfold extract_info extract_info_withFaults
  exact (runSteps_ok _ _).symm

/-! ## Prototype experience estimate (`prototype/cv_parser.py`
lines 34–41 and 118–129) -/

/-- The month alternatives of `DATE_RANGE_PATTERN`, long form before
short form (the greedy optional suffix), in pattern order; the pattern
is compiled case-sensitively. -/
def monthAlts : List Str :=
  ["January".toList, "Jan".toList, "February".toList, "Feb".toList,
   "March".toList, "Mar".toList, "April".toList, "Apr".toList, "May".toList,
   "June".toList, "Jun".toList, "July".toList, "Jul".toList,
   "August".toList, "Aug".toList, "September".toList, "Sep".toList,
   "October".toList, "Oct".toList, "November".toList, "Nov".toList,
   "December".toList, "Dec".toList]

/-- Four digits ahead. -/
def digits4 (s : Str) : Bool :=
  match s with
  | a :: b :: c :: d :: _ => a.isDigit && b.isDigit && c.isDigit && d.isDigit
  | _ => false

def isDateSep (c : Char) : Bool := c = ' ' || c = '\t' || c = '.' || c = ',' || c = '-'

/-- A month alternative followed by `[ \t.,-]?` and `\d{4}`; returns
the consumed length. -/
def parseMonthYear (s : Str) : Option Nat :=
  monthAlts.findSome? (fun m =>
    if m.isPrefixOf s then
      let rest := s.drop m.length
      match rest with
      | c :: r2 =>
        if isDateSep c && digits4 r2 then some (m.length + 5)
        else if digits4 rest then some (m.length + 4) else none
      | [] => none
    else none)

/-- `\d{1,2}/\d{4}` (two digits before the slash, else one). -/
def parseSlash (s : Str) : Option Nat :=
  (match s with
   | a :: b :: '/' :: r =>
     if a.isDigit && b.isDigit && digits4 r then some 7 else none
   | _ => none).orElse fun _ =>
  (match s with
   | a :: '/' :: r => if a.isDigit && digits4 r then some 6 else none
   | _ => none)

/-- The left side of a date range: month-year, slash form, or a bare
year, in pattern order. -/
def parseLeft (s : Str) : Option Nat :=
  (parseMonthYear s).orElse fun _ =>
  (parseSlash s).orElse fun _ =>
  (if digits4 s then some 4 else none)

/-- The right side: `Present`, slash form, bare year, or month-year. -/
def parseRight (s : Str) : Option Nat :=
  (if "Present".toList.isPrefixOf s then some 7 else none).orElse fun _ =>
  (parseSlash s).orElse fun _ =>
  (if digits4 s then some 4 else none).orElse fun _ =>
  parseMonthYear s

/-- `DATE_RANGE_PATTERN` at one position: left side, `\s*[-–]\s*`,
right side; returns the matched length. -/
def matchRangeAt (s : Str) : Option Nat :=
  match parseLeft s with
  | none => none
  | some l =>
    let s1 := s.drop l
    let ws1 := (s1.takeWhile isSpacePy).length
    match s1.drop ws1 with
    | c :: r =>
      if c = '-' || c = '–' then
        let ws2 := (r.takeWhile isSpacePy).length
        match parseRight (r.drop ws2) with
        | some rl => some (l + ws1 + 1 + ws2 + rl)
        | none => none
      else none
    | [] => none

/-- `re.finditer(DATE_RANGE_PATTERN, text)`: leftmost, non-overlapping
matches (fuel-indexed for structural recursion; every step consumes at
least one character, so `length` fuel suffices). -/
def dateRangesF : Nat → Str → List Str
  | 0, _ => []
  | _ + 1, [] => []
  | fuel + 1, c :: rest =>
    match matchRangeAt (c :: rest) with
    | some len => (c :: rest).take len :: dateRangesF fuel ((c :: rest).drop len)
    | none => dateRangesF fuel rest

def dateRanges (s : Str) : List Str := dateRangesF s.length s

/-- `re.findall(r"\d{4}", m)`: non-overlapping four-digit groups. -/
def peek4 (s : Str) : Option Nat :=
  match s with
  | a :: b :: c :: d :: _ =>
    if a.isDigit && b.isDigit && c.isDigit && d.isDigit then
      some (digitsToNat [a, b, c, d])
    else none
  | _ => none

def findAll4Aux : Nat → Str → List Nat
  | _, [] => []
  | skip + 1, _ :: rest => findAll4Aux skip rest
  | 0, c :: rest =>
    match peek4 (c :: rest) with
    | some n => n :: findAll4Aux 3 rest
    | none => findAll4Aux 0 rest

def findAll4Digit (s : Str) : List Nat := findAll4Aux 0 s

/-- The per-range contribution of the experience loop: two years give
their positive difference, a single year with `"present"` in the match
gives `2025 - year` (unconditionally added). -/
def rangeContribution (m : Str) : Int :=
  match findAll4Digit m with
  | [y1, y2] => if (y2 : Int) - (y1 : Int) > 0 then (y2 : Int) - (y1 : Int) else 0
  | [y] => if occursIn "present".toList (pyLower m) then 2025 - (y : Int) else 0
  | _ => 0

/-- `experience_years` of `prototype/cv_parser.py` `extract_info`. -/
def experienceYears (text : Str) : Int :=
  ((dateRanges text).map rangeContribution).foldl (· + ·) 0

-- sanity checks
example :
    dateRanges "2015 - 2018\n2019 - Present".toList =
      ["2015 - 2018".toList, "2019 - Present".toList] := rfl
example : findAll4Digit "2015 - 2018".toList = [2015, 2018] := rfl
example : rangeContribution "2019 - Present".toList = 6 := rfl
example : experienceYears "Jan 2020 - Mar 2023 x".toList = 3 := rfl

/-! ## Properties of the entity merger (claims C7, C8) -/

theorem lexLe_total : ∀ (a b : Str), lexLe a b = true ∨ lexLe b a = true
  | [], _ => Or.inl rfl
  | _ :: _, [] => Or.inr rfl
  | a :: as, b :: bs => by
    rcases lt_trichotomy a b with h | h | h
    · left; simp [lexLe, h]
    · subst h
      rcases lexLe_total as bs with ih | ih
      · left; simp [lexLe, ih]
      · right; simp [lexLe, ih]
    · right; simp [lexLe, h]

theorem lexLe_trans : ∀ (a b c : Str),
    lexLe a b = true → lexLe b c = true → lexLe a c = true
  | [], _, _, _, _ => rfl
  | _ :: _, [], _, h, _ => by simp [lexLe] at h
  | _ :: _, _ :: _, [], _, h => by simp [lexLe] at h
  | a :: as, b :: bs, c :: cs, h1, h2 => by
    simp only [lexLe] at h1 h2 ⊢
    by_cases hab : a < b
    · by_cases hbc : b < c
      · simp [lt_trans hab hbc]
      · rw [if_neg hbc] at h2
        by_cases hbc2 : b = c
        · subst hbc2; simp [hab]
        · simp [hbc2] at h2
    · rw [if_neg hab] at h1
      by_cases hab2 : a = b
      · subst hab2
        rw [if_pos rfl] at h1
        by_cases hbc : a < c
        · simp [hbc]
        · rw [if_neg hbc] at h2
          by_cases hbc2 : a = c
          · subst hbc2
            simp only [lt_irrefl, if_neg, if_pos rfl, reduceIte]
            exact lexLe_trans as bs cs h1 (by simpa using h2)
          · simp [hbc2] at h2
      · simp [hab2] at h1

instance lexLeTotal : IsTotal Str (fun a b => lexLe a b = true) := ⟨lexLe_total⟩

instance lexLeTrans : IsTrans Str (fun a b => lexLe a b = true) :=
  ⟨fun a b c => lexLe_trans a b c⟩

theorem pySortedSet_sorted (l : List Str) :
    (pySortedSet l).Pairwise (fun a b => lexLe a b = true) :=
  List.sorted_insertionSort _ _

theorem pySortedSet_nodup (l : List Str) : (pySortedSet l).Nodup :=
  (List.perm_insertionSort _ _).symm.nodup (List.nodup_dedup l)

theorem pySortedSet_mem {l : List Str} {x : Str} (h : x ∈ pySortedSet l) : x ∈ l := by
  unfold pySortedSet at h
  exact List.mem_dedup.mp ((List.mem_insertionSort _).mp h)

/-- C7: for every list of entity spans and every label, the merged
output of the entity merger contains no duplicate, contains no entry of
length ≤ 1, and is sorted lexicographically (Python string order,
embedded as `lexLe`). -/
theorem c7_merged_output_invariant (entities : List Entity) (label : Str) :
    (combine_entities_vn entities label).Nodup ∧
    (combine_entities_vn entities label).Pairwise (fun a b => lexLe a b = true) ∧
    ∀ s ∈ combine_entities_vn entities label, 1 < s.length := by
  refine ⟨pySortedSet_nodup _, pySortedSet_sorted _, fun s hs => ?_⟩
  have := pySortedSet_mem hs
  have := (List.mem_filter.mp this).2
  simpa using this

/-- `dropTrailingSpace` keeps the head character (when anything is
kept at all). -/
theorem dropTrailingSpace_cases (c : Char) (cs : Str) :
    dropTrailingSpace (c :: cs) = [] ∨
      ∃ t, dropTrailingSpace (c :: cs) = c :: t := by
  unfold dropTrailingSpace
  by_cases h : ((dropTrailingSpace cs).isEmpty && isSpacePy c) = true
  · left; simp [h]
  · right; exact ⟨dropTrailingSpace cs, by simp [h]⟩

/-- The stripped span text never begins with a space character. -/
theorem startsWithSpace_pyStrip (w : Str) : startsWithSpace (pyStrip w) = false := by
  unfold pyStrip
  induction w with
  | nil => rfl
  | cons c cs ih =>
    by_cases hc : isSpacePy c = true
    · simpa [List.dropWhile_cons, hc] using ih
    · rw [List.dropWhile_cons, if_neg (by simp [hc])]
      rcases dropTrailingSpace_cases c cs with h | ⟨t, h⟩
      · rw [h]; rfl
      · rw [h]
        have hne : c ≠ ' ' := fun hcs => hc (by rw [hcs]; rfl)
        simp [startsWithSpace, hne]

/-- The merger step with the dead continuation test removed: a
same-label span is always appended to a nonempty buffer. -/
def combStepAlwaysAppend (label : Str) (st : List Str × List Str) (e : Entity) :
    List Str × List Str :=
  let combined := st.1
  let current := st.2
  if e.group = label then
    let word := pyStrip (removeHash e.word)
    if !current.isEmpty then (combined, current ++ [word])
    else (combined, [word])
  else
    if !current.isEmpty then (combined ++ [pyStrip (joinSpace current)], [])
    else (combined, [])

theorem combStep_eq_alwaysAppend (label : Str) (st : List Str × List Str) (e : Entity) :
    combStep label st e = combStepAlwaysAppend label st e := by
  unfold combStep combStepAlwaysAppend
  simp only [startsWithSpace_pyStrip, Bool.not_false, Bool.and_true]
  by_cases hg : e.group = label <;> by_cases hc : (!st.2.isEmpty) = true <;>
    simp [hg, hc]

/-- The merger with the continuation test removed. -/
def combine_entities_alwaysAppend (entities : List Entity) (label : Str) : List Str :=
  let st := (sortEntities entities).foldl (combStepAlwaysAppend label) ([], [])
  let combined := if st.2.isEmpty then st.1 else st.1 ++ [pyStrip (joinSpace st.2)]
  pySortedSet (combined.filter (fun c => 1 < c.length))

/-- C8 (amended): the span text is stripped before the boundary test,
so the test never fires — the merger behaves exactly as if every
same-label span were appended to the current nonempty buffer; only a
label mismatch (or an empty buffer) starts a new entity. -/
theorem c8_boundary_test_vacuous (entities : List Entity) (label : Str) :
    combine_entities_vn entities label = combine_entities_alwaysAppend entities label := by
  unfold combine_entities_vn combine_entities_alwaysAppend
  rw [show combStep label = combStepAlwaysAppend label from
    funext fun st => funext fun e => combStep_eq_alwaysAppend label st e]

/-- The spans used by the C8 counterexample: the second same-label span
begins with a space, i.e. at a word boundary. -/
def entsBoundary : List Entity :=
  [⟨"Nguyen".toList, "PERSON".toList, 0⟩, ⟨" Van".toList, "PERSON".toList, 6⟩]

/-- C8 (counterexample): a same-label span that begins at a word
boundary (leading space) does NOT flush the buffer — the code strips
the text first and appends, producing one merged entity where the claim
predicts the flush would give two. -/
theorem c8_counterexample :
    combine_entities_vn entsBoundary "PERSON".toList = ["Nguyen Van".toList] ∧
    combine_entities_vn entsBoundary "PERSON".toList ≠
      ["Nguyen".toList, "Van".toList] := by
  refine ⟨rfl, by decide⟩

/-! ## Location resolution (claims C1, C5) -/

/-- With an empty catalog every lookup path of `match_location` is
empty, so it returns the Python `None`. -/
theorem match_location_empty_catalog (score : Str → Str → ℚ) (s : Str) :
    match_location score [] s = none := by
  unfold match_location
  have hfz : ∀ n, fuzzyPhase score [] s n = none := by
    intro n
    unfold fuzzyPhase
    simp
  simp only [hfz, List.find?_nil]
  split <;> rfl

theorem foldl_const {α β : Type} (l : List α) (x : β) :
    l.foldl (fun acc _ => acc) x = x := by
  induction l generalizing x with
  | nil => rfl
  | cons _ rest ih => exact ih x

/-- C1 (amended): when the reference-catalog fetch fails (empty
catalog), `match_location` returns null for every input and the emitted
record's `khu_vuc` is NULL — `get_default_location` iterates an empty
list and implicitly returns `None`, so no sentinel id is available; no
exception propagates (every path is total). -/
theorem c1_empty_catalog_region_null (score : Str → Str → ℚ) (s text : Str)
    (entities : List Entity) (i : Info) :
    match_location score [] s = none ∧
    get_default_location [] = none ∧
    (extract_location_info score [] text entities i).khu_vuc = none := by
  refine ⟨match_location_empty_catalog score s, rfl, ?_⟩
  simp only [extract_location_info]
  have hfold :
      (combine_entities_vn entities "LOCATION".toList).foldl
        (fun acc l =>
          match match_location score ([] : List CatEntry) l with
          | some id => if id ≠ 0 then some id else acc
          | none => acc) none = none := by
    have : (fun (acc : Option Nat) (l : Str) =>
        match match_location score ([] : List CatEntry) l with
        | some id => if id ≠ 0 then some id else acc
        | none => acc) = fun acc _ => acc := by
      funext acc l
      rw [match_location_empty_catalog score l]
    rw [this, foldl_const]
  rw [hfold]
  cases hfb : findLocFallback (pyLower text) text with
  | none => rfl
  | some t => simp [hfb, match_location_empty_catalog score t, get_default_location,
      List.find?]

/-- The concrete catalog-unavailable scenario: the merged location
entity "Hà Nội" is an exact alias-table hit, yet with the empty catalog
nothing resolves and the record's region is null — refuting the claim
that the region is populated with the sentinel default id. -/
theorem c1_counterexample :
    (extract_location_info (fun _ _ => 0) [] "Hà Nội".toList
      [⟨"Hà".toList, "LOCATION".toList, 0⟩, ⟨"Nội".toList, "LOCATION".toList, 3⟩]
      info_structure).khu_vuc = none := rfl

/-- The last truthy match of the entity list, scanning from the right
(what the overriding loop of `extract_location_info` computes). -/
def lastTruthyMatch (f : Str → Option Nat) (locs : List Str) : Option Nat :=
  locs.reverse.findSome? (fun l =>
    match f l with
    | some id => if id ≠ 0 then some id else none
    | none => none)

theorem foldl_truthy_eq_lastTruthyMatch (f : Str → Option Nat) :
    ∀ (locs : List Str) (acc0 : Option Nat),
      locs.foldl (fun acc l =>
        match f l with
        | some id => if id ≠ 0 then some id else acc
        | none => acc) acc0 =
      match lastTruthyMatch f locs with
      | some v => some v
      | none => acc0
  | [], _ => rfl
  | l :: rest, acc0 => by
    rw [List.foldl_cons, foldl_truthy_eq_lastTruthyMatch f rest]
    unfold lastTruthyMatch
    rw [List.reverse_cons, List.findSome?_append]
    cases hrest : List.findSome? (fun l =>
        match f l with
        | some id => if id ≠ 0 then some id else none
        | none => none) rest.reverse with
    | some v => simp
    | none =>
      simp only [Option.none_or]
      cases hf : f l with
      | none => simp [List.findSome?_cons, hf]
      | some id =>
        by_cases hid : id ≠ 0 <;> simp [List.findSome?_cons, hf, hid]

/-- The location resolution written the way the record field is
assembled: last resolving entity, else the regex fallback, else the
default. -/
def locResolveSpec (score : Str → Str → ℚ) (provinces : List CatEntry)
    (text : Str) (entities : List Entity) : Option Nat :=
  let fromEntities :=
    lastTruthyMatch (match_location score provinces)
      (combine_entities_vn entities "LOCATION".toList)
  let withFallback :=
    match fromEntities with
    | some id => some id
    | none =>
      match findLocFallback (pyLower text) text with
      | some t =>
        match match_location score provinces t with
        | some id => if id ≠ 0 then some id else none
        | none => none
      | none => none
  match withFallback with
  | some id => some id
  | none => get_default_location provinces

/-- C5 (amended): the entity loop of `extract_location_info` has no
break, so the LAST merged entity that `match_location` resolves (to a
truthy id) determines the region — a later success overrides an earlier
one; the regex fallback and the default are used only when no entity
resolves. -/
theorem c5_last_success_wins (score : Str → Str → ℚ) (provinces : List CatEntry)
    (text : Str) (entities : List Entity) (i : Info) :
    (extract_location_info score provinces text entities i).khu_vuc =
      locResolveSpec score provinces text entities := by
  simp only [extract_location_info, locResolveSpec]
  rw [foldl_truthy_eq_lastTruthyMatch]
  cases lastTruthyMatch (match_location score provinces)
      (combine_entities_vn entities "LOCATION".toList) <;> rfl

/-- The catalog and entity spans of the C5 counterexample. -/
def provincesHNDN : List CatEntry := [(1, "Hà Nội".toList), (2, "Đà Nẵng".toList)]

def entsDnHn : List Entity :=
  [⟨"dn".toList, "LOCATION".toList, 0⟩, ⟨"x".toList, "O".toList, 2⟩,
   ⟨"hn".toList, "LOCATION".toList, 3⟩]

/-- C5 (counterexample): the merged entities are `["dn", "hn"]` in
order; the first to resolve gives id 2, the later one gives id 1, and
the record ends with id 1 — the later success overrides, so "first
success wins" is false. -/
theorem c5_counterexample :
    combine_entities_vn entsDnHn "LOCATION".toList = ["dn".toList, "hn".toList] ∧
    match_location (fun _ _ => 0) provincesHNDN "dn".toList = some 2 ∧
    match_location (fun _ _ => 0) provincesHNDN "hn".toList = some 1 ∧
    (extract_location_info (fun _ _ => 0) provincesHNDN [] entsDnHn
      info_structure).khu_vuc = some 1 :=
  ⟨rfl, rfl, rfl, rfl⟩

/-! ## Orchestrator fault isolation (claim C2) and the end-to-end
sample (claim C3) -/

/-- The end-to-end sample text of the specification (§8). -/
def cvSampleText : Str :=
  "Nguyen Van A\nEmail: a@x.com\n0912345678\n5 năm kinh nghiệm\nĐại học Bách Khoa 2016-2020\nTiếng Anh giao tiếp tốt".toList

theorem runSteps_error (i : Info) (fs : List (Info → Info))
    (rest : List (Except Unit (Info → Info))) :
    runSteps i (fs.map Except.ok ++ Except.error () :: rest) =
      fs.foldl (fun j f => f j) i := by
  induction fs generalizing i with
  | nil => rfl
  | cons f fs ih => simp [runSteps, List.foldl_cons, ih]

/-- C2 (amended): the orchestrator's single `try/except` catches a
fault at the whole-block level, so a fault in one resolver keeps the
fields of the resolvers that ran before it and leaves the faulting
field AND every later field at its default — not only the faulting
field; no exception escapes. -/
theorem c2_fault_truncates_suffix (fs : List (Info → Info))
    (rest : List (Except Unit (Info → Info))) :
    extract_info_withFaults (fs.map Except.ok ++ Except.error () :: rest) =
      fs.foldl (fun i f => f i) info_structure :=
  runSteps_error info_structure fs rest

/-- C2 (counterexample): inject a fault into the FIRST resolver (name)
on the sample document, leaving every other resolver intact: the email
resolver never runs and the returned record's email is null, although
the same pipeline without the fault resolves it — so a fault does not
degrade "only that field". -/
theorem c2_counterexample :
    (extract_info_withFaults (Except.error () ::
        ((vnSteps (fun _ _ => 0) [] [] cvSampleText []).drop 1).map Except.ok)).email =
      none ∧
    (extract_info (fun _ _ => 0) [] [] cvSampleText []).email =
      some "a@x.com".toList :=
  ⟨rfl, rfl⟩

/-- C3 (amended): on the sample text, for EVERY entity list, similarity
oracle and catalog pair, the extractor returns email "a@x.com", phone
"0912345678", 5 years of experience, education level 3 — and English
proficiency id 3 ("Tiếng Anh cơ bản", the BASIC tier), because the line
"Tiếng Anh giao tiếp tốt" contains the basic keyword "tốt" while "giao
tiếp" is not in the advanced keyword list. -/
theorem c3_end_to_end (score : Str → Str → ℚ) (provinces skills : List CatEntry)
    (entities : List Entity) :
    (extract_info score provinces skills cvSampleText entities).email =
        some "a@x.com".toList ∧
    (extract_info score provinces skills cvSampleText entities).so_dien_thoai =
        some "0912345678".toList ∧
    (extract_info score provinces skills cvSampleText entities).kinh_nghiem_nam =
        some 5 ∧
    (extract_info score provinces skills cvSampleText entities).trinh_do_hoc_van =
        some 3 ∧
    (extract_info score provinces skills cvSampleText entities).ngoai_ngu =
        some 3 :=
  ⟨rfl, rfl, rfl, rfl, rfl⟩

/-- C3 (counterexample): the language field of the sample record is the
basic-English id 3, not the advanced id 1 the claim asserts. -/
theorem c3_counterexample :
    (extract_info (fun _ _ => 0) [] [] cvSampleText []).ngoai_ngu = some 3 ∧
    (3 : Nat) ≠ 1 :=
  ⟨rfl, by decide⟩

/-! ## Language-proficiency last-line-wins sample (claim C6) -/

/-- C6 (counterexample): on the exact two-line document of the claim,
neither line contains an English-language marker ("english" /
"tiếng anh"), so the per-line gate never fires and the classifier
returns the none-sentinel id 5 — not the basic id 3 the claim
asserts. -/
theorem c6_counterexample :
    extract_language_info "IELTS 8.0\nTOEIC 500".toList = 5 ∧ (5 : Nat) ≠ 3 :=
  ⟨rfl, by decide⟩

/-- C6 (amended): once each line carries an English marker, the claimed
behavior holds: line 1 alone classifies as advanced (id 1), but the
second line's TOEIC 500 re-classifies to basic (id 3) — the later
line's result replaces the earlier one. -/
theorem c6_last_line_wins :
    extract_language_info "English IELTS 8.0\nEnglish TOEIC 500".toList = 3 ∧
    extract_language_info "English IELTS 8.0".toList = 1 :=
  ⟨rfl, rfl⟩

/-! ## Prototype experience summation (claim C9) -/

/-- C9 (counterexample): the prototype resolves "Present" to 2025, not
2024: the two ranges sum to 3 + 6 = 9, not 8. -/
theorem c9_counterexample :
    experienceYears "2015 - 2018\n2019 - Present".toList = 9 ∧ (9 : Int) ≠ 8 :=
  ⟨rfl, by decide⟩

/-- C9 (amended): with the fixed reference year 2025 that the code
uses, the document contributes 2018 − 2015 = 3 and 2025 − 2019 = 6,
total 9; a non-positive two-year gap is discarded. -/
theorem c9_experience_sum :
    experienceYears "2015 - 2018\n2019 - Present".toList = 3 + 6 ∧
    rangeContribution "2019 - Present".toList = 2025 - 2019 ∧
    rangeContribution "2020 - 2018".toList = 0 :=
  ⟨rfl, rfl, rfl⟩

/-! ## The fused basic-level keyword (claim C10) -/

/-- C10: the missing list separator fuses `"thường"` and `"basic"` into
the single keyword `"thườngbasic"`, so `"basic"` itself is not a
basic-level keyword: for every line that carries an English marker and
the word "basic" but no test score, no CEFR token and no other level
keyword, the English branch assigns no level (keeps the previous
value), and the one-line document "Tiếng Anh basic" yields the
none-sentinel id 5 instead of basic-English id 3. -/
theorem c10_fused_basic_keyword (line : Str) (prev : Option Bool)
    (hgate : (occursIn "tiếng anh".toList line || occursIn "english".toList line) = true)
    (hbasic : occursIn "basic".toList line = true)
    (hielts : findIelts line = none)
    (htoeic : findToeic line = none)
    (hcefr1 : hasWordToken ["c1".toList, "c2".toList] line = false)
    (hcefr2 : hasWordToken ["a1".toList, "a2".toList, "b1".toList, "b2".toList] line = false)
    (hadv : advancedKws.any (fun k => occursIn k line) = false)
    (hbk : basicKws.any (fun k => occursIn k line) = false) :
    "basic".toList ∉ basicKws ∧
    "thườngbasic".toList ∈ basicKws ∧
    englishStep line prev = prev ∧
    extract_language_info "Tiếng Anh basic".toList = 5 := by
  refine ⟨by decide, by decide, ?_, rfl⟩
  unfold englishStep
  simp [hgate, hielts, htoeic, hcefr1, hcefr2, hadv, hbk]
  intro _
  have h1 : hasWordToken [['c', '1'], ['c', '2']] line = false := hcefr1
  have h2 : hasWordToken [['a', '1'], ['a', '2'], ['b', '1'], ['b', '2']] line = false :=
    hcefr2
  simp [h1, h2]

/-- Witness for C10 at the concrete line "tiếng anh basic". -/
theorem c10_witness :
    englishStep (pyLower "Tiếng Anh basic".toList) none = none :=
  (c10_fused_basic_keyword (pyLower "Tiếng Anh basic".toList) none (by decide)
    (by decide) rfl rfl rfl rfl rfl rfl).2.2.1

/-! ## The education decision ladder (claim C4) -/

theorem occursIn_iff (kw : Str) : ∀ (s : Str), occursIn kw s = true ↔ kw <:+: s
  | [] => by
    rw [occursIn]
    simp [List.isEmpty_iff, List.infix_nil]
  | c :: cs => by
    rw [occursIn, Bool.or_eq_true, List.isPrefixOf_iff_prefix, occursIn_iff kw cs,
      List.infix_cons_iff]

theorem occursIn_mono {kw s t : Str} (hst : s <:+: t)
    (h : occursIn kw s = true) : occursIn kw t = true :=
  (occursIn_iff kw t).mpr (((occursIn_iff kw s).mp h).trans hst)

theorem blockedAfter_occurs : ∀ (x : Str), blockedAfter x = true →
    occursIn "thạc sĩ".toList x = true ∨ occursIn "tiến sĩ".toList x = true
  | [], h => by simp [blockedAfter] at h
  | c :: cs, h => by
    rw [blockedAfter] at h
    rcases Bool.or_eq_true _ _ |>.mp h with h1 | h2
    · rcases Bool.or_eq_true _ _ |>.mp h1 with ha | hb
      · left; rw [occursIn, ha]; rfl
      · right; rw [occursIn, hb]; rfl
    · rcases Bool.and_eq_true _ _ |>.mp h2 with ⟨_, hrec⟩
      rcases blockedAfter_occurs cs hrec with ha | hb
      · left; rw [occursIn, ha]; simp
      · right; rw [occursIn, hb]; simp

theorem uniHit_exists : ∀ (s : Str), uniHit s = true →
    ∃ k pre s₂, k ∈ uniKws ∧ s = pre ++ s₂ ∧ k.isPrefixOf s₂ = true ∧
      blockedAfter (s₂.drop k.length) = false
  | [], h => by simp [uniHit] at h
  | c :: cs, h => by
    rw [uniHit] at h
    rcases Bool.or_eq_true _ _ |>.mp h with h1 | h2
    · rcases List.any_eq_true.mp h1 with ⟨k, hk, hcond⟩
      rcases Bool.and_eq_true _ _ |>.mp hcond with ⟨hpre, hnb⟩
      exact ⟨k, [], c :: cs, hk, rfl, hpre, by simpa using hnb⟩
    · rcases uniHit_exists cs h2 with ⟨k, pre, s₂, hk, heq, hpre, hnb⟩
      exact ⟨k, c :: pre, s₂, hk, by rw [heq]; rfl, hpre, hnb⟩

theorem uniHit_of_parts : ∀ (pre s₂ k : Str), k ∈ uniKws →
    k.isPrefixOf s₂ = true → blockedAfter (s₂.drop k.length) = false →
    uniHit (pre ++ s₂) = true
  | [], s₂, k, hk, hpre, hnb => by
    cases s₂ with
    | nil =>
      rw [List.isPrefixOf_iff_prefix] at hpre
      have : k = [] := List.prefix_nil.mp hpre
      subst this
      exact absurd hk (by decide)
    | cons c cs =>
      rw [List.nil_append, uniHit]
      apply (Bool.or_eq_true _ _).mpr
      left
      exact List.any_eq_true.mpr ⟨k, hk, by simp [hpre, hnb]⟩
  | c :: pre, s₂, k, hk, hpre, hnb => by
    rw [List.cons_append, uniHit]
    apply (Bool.or_eq_true _ _).mpr
    right
    exact uniHit_of_parts pre s₂ k hk hpre hnb

theorem isPrefixOf_append {k s v : Str} (h : k.isPrefixOf s = true) :
    k.isPrefixOf (s ++ v) = true := by
  rw [List.isPrefixOf_iff_prefix] at *
  exact h.trans (List.prefix_append s v)

/-- A university-keyword occurrence inside an infix of `low` lifts to
`low` itself: either the lookahead stays clear in the larger context
(then the tier-3 pattern matches `low`) or the lookahead got blocked by
following text, which then contains a postgraduate keyword. -/
theorem uniHit_widen {sec low : Str} (hinf : sec <:+: low)
    (h : uniHit sec = true) :
    uniHit low = true ∨ kwAnyIn postgradKws low = true := by
  rcases uniHit_exists sec h with ⟨k, pre, s₂, hk, heq, hpre, hnb⟩
  rcases hinf with ⟨u, v, hlow⟩
  have hklen : k.length ≤ s₂.length :=
    (List.isPrefixOf_iff_prefix.mp hpre).length_le
  have hdrop : (s₂ ++ v).drop k.length = s₂.drop k.length ++ v :=
    List.drop_append_of_le_length hklen
  have hlow2 : (u ++ pre) ++ (s₂ ++ v) = low := by
    rw [← hlow, heq]
    simp [List.append_assoc]
  cases hb : blockedAfter (s₂.drop k.length ++ v) with
  | false =>
    left
    have := uniHit_of_parts (u ++ pre) (s₂ ++ v) k hk (isPrefixOf_append hpre)
      (by rw [hdrop]; exact hb)
    rwa [hlow2] at this
  | true =>
    right
    have hsfx : (s₂.drop k.length ++ v) <:+ low := by
      refine ⟨u ++ pre ++ s₂.take k.length, ?_⟩
      rw [← hlow2]
      simp only [List.append_assoc]
      rw [← List.append_assoc (s₂.take k.length) (s₂.drop k.length) v,
        List.take_append_drop]
    rcases blockedAfter_occurs _ hb with hocc | hocc
    · exact List.any_eq_true.mpr ⟨"thạc sĩ".toList, by decide,
        occursIn_mono hsfx.isInfix hocc⟩
    · exact List.any_eq_true.mpr ⟨"tiến sĩ".toList, by decide,
        occursIn_mono hsfx.isInfix hocc⟩

theorem eduFullScan_eq_none {s : Str} :
    eduFullScan s = none ↔
      kwAnyIn postgradKws s = false ∧ uniHit s = false ∧
      kwAnyIn collegeKws s = false ∧ kwAnyIn highSchoolKws s = false := by
  unfold eduFullScan
  split_ifs <;> simp_all

theorem takeUntilStop_isPrefix : ∀ (s : Str), takeUntilStop s <+: s
  | [] => List.nil_prefix
  | c :: cs => by
    rw [takeUntilStop]
    split
    · exact List.nil_prefix
    · exact List.cons_prefix_cons.mpr ⟨rfl, takeUntilStop_isPrefix cs⟩

theorem dropColonPart_isSuffix (s : Str) : dropColonPart s <:+ s := by
  unfold dropColonPart
  exact (List.drop_suffix 1 _).trans (List.dropWhile_suffix _)

theorem eduSection_within : ∀ (low sec : Str), eduSection low = some sec → sec <:+: low
  | [], _, h => by simp [eduSection] at h
  | c :: cs, sec, h => by
    rw [eduSection] at h
    split at h
    · next hfind =>
      injection h with h
      subst h
      exact ((takeUntilStop_isPrefix _).isInfix.trans
        (dropColonPart_isSuffix _).isInfix).trans (List.drop_suffix _ _).isInfix
    · exact List.infix_cons_iff.mpr
        (Or.inr (eduSection_within cs sec h))

theorem eduFullScan_sec_none {low sec : Str} (hinf : sec <:+: low)
    (hnone : eduFullScan low = none) : eduFullScan sec = none := by
  rcases eduFullScan_eq_none.mp hnone with ⟨h1, h2, h3, h4⟩
  have mono : ∀ kws, kwAnyIn kws low = false → kwAnyIn kws sec = false := by
    intro kws hlow
    by_contra hsec
    rw [Bool.not_eq_false] at hsec
    rcases List.any_eq_true.mp hsec with ⟨k, hk, hocc⟩
    have : kwAnyIn kws low = true :=
      List.any_eq_true.mpr ⟨k, hk, occursIn_mono hinf hocc⟩
    rw [hlow] at this
    exact absurd this (by simp)
  refine eduFullScan_eq_none.mpr ⟨mono _ h1, ?_, mono _ h3, mono _ h4⟩
  by_contra hu
  rw [Bool.not_eq_false] at hu
  rcases uniHit_widen hinf hu with hx | hx
  · rw [hx] at h2; exact absurd h2 (by simp)
  · rw [hx] at h1; exact absurd h1 (by simp)

/-- C4 (amended, order part): the extractor's decision order — full
text, then organization spans, then the education section — is
extensionally EQUAL to the claimed order full text → education section
→ organization spans → default 5, because a section-restricted tier hit
always implies a whole-document tier hit (the section is a substring of
the document, and a lookahead blocked only in the larger context
exposes a postgraduate keyword that the full scan catches first). -/
theorem c4_ladder_order_equiv (text : Str) (entities : List Entity) :
    extract_education_level text entities = eduLadderSpec text entities := by
  simp only [extract_education_level, eduLadderSpec]
  cases hscan : eduFullScan (pyLower text) with
  | some d => rfl
  | none =>
    cases hsec : eduSection (pyLower text) with
    | none =>
      cases orgScan entities <;> simp [hsec]
    | some sec =>
      have h2 : eduFullScan sec = none :=
        eduFullScan_sec_none (eduSection_within _ _ hsec) hscan
      cases orgScan entities <;> simp [hsec, h2, Option.bind]

/-- The organization spans of the C4 counterexample: two sub-token
spans whose MERGED text contains a university keyword that neither raw
span contains. -/
def entsSplitOrg : List Entity :=
  [⟨"Đại".toList, "ORGANIZATION".toList, 0⟩, ⟨"học".toList, "ORGANIZATION".toList, 4⟩]

/-- C4 (counterexample): the entity stage inspects the RAW organization
spans, not the merged entities the claim names: merging yields
"Đại học" (a university-keyword hit, tier 3), yet the extractor returns
the default 5 because neither raw span alone contains a keyword. -/
theorem c4_counterexample :
    combine_entities_vn entsSplitOrg "ORGANIZATION".toList = ["Đại học".toList] ∧
    orgHitVn "Đại học".toList = some 3 ∧
    extract_education_level "abc".toList entsSplitOrg = 5 :=
  ⟨rfl, rfl, rfl⟩
